import Mathlib

/-!
Shallow embedding of the schema-resolution and tool-flattening engine of
`mcp-openapi` (`mcp_openapi/parser.py`, and the tool builder/dispatcher whose
tests and callers live in the sources).

Conventions of the embedding:
* Python `None` for optional fields is `Option.none`.
* The OpenAPI document is an `Api`: a total map from component-schema name to
  its raw node (`api.components.schemas[name]`); every claim instantiates it
  with documents in which all references resolve, matching the code paths the
  claims describe (a dangling reference raises `KeyError` in Python and is out
  of scope of every claim).
* `aiopenapi3` reference objects proxy attribute access to their target; the
  `...In` accessors below reproduce that one-level proxying.
* The mutable `visited` set of `_process_schema` is threaded explicitly: every
  resolution step returns the updated set (a duplicate-free `List String` of
  full `$ref` strings), so mutations made in one branch are seen by siblings
  and by the caller, exactly as sharing one Python `set` does.
-/

/-- A raw OpenAPI schema node as `_process_schema` receives it: either a
`$ref` (carrying the full reference string, e.g. `#/components/schemas/A`)
or an inline schema object with the attributes the parser reads:
`type`, `properties` (insertion-ordered), `items`, `allOf`, `anyOf`,
`additionalProperties` (truthiness only), `description`. -/
inductive RawNode where
  | ref (r : String)
  | obj (type : Option String) (properties : List (String × RawNode))
      (items : Option RawNode) (allOf : List RawNode) (anyOf : List RawNode)
      (addProps : Bool) (descr : Option String)

/-- The component-schema table `api.components.schemas`, keyed by name. -/
def Api : Type := String → RawNode

/-- `schema.ref.split("/")[-1]`: the segment after the last `/` (the whole
string when there is none), written over the character list so that it
evaluates by kernel reduction. -/
def lastSegAux : List Char → List Char → List Char
  | [], acc => acc
  | c :: cs, acc => if c = '/' then lastSegAux cs [] else lastSegAux cs (acc ++ [c])

def lastSeg (r : String) : String := String.mk (lastSegAux r.toList [])

/-- `hasattr(schema, "ref")`. -/
def RawNode.isRef : RawNode → Bool
  | .ref _ => true
  | _ => false

def RawNode.rawType : RawNode → Option String
  | .ref _ => none
  | .obj t _ _ _ _ _ _ => t

def RawNode.rawProps : RawNode → List (String × RawNode)
  | .ref _ => []
  | .obj _ ps _ _ _ _ _ => ps

def RawNode.rawItems : RawNode → Option RawNode
  | .ref _ => none
  | .obj _ _ it _ _ _ _ => it

def RawNode.rawAllOf : RawNode → List RawNode
  | .ref _ => []
  | .obj _ _ _ ao _ _ _ => ao

def RawNode.rawAnyOf : RawNode → List RawNode
  | .ref _ => []
  | .obj _ _ _ _ an _ _ => an

def RawNode.rawAdd : RawNode → Bool
  | .ref _ => false
  | .obj _ _ _ _ _ ad _ => ad

def RawNode.rawDescr : RawNode → Option String
  | .ref _ => none
  | .obj _ _ _ _ _ _ d => d

/-- `aiopenapi3` resolves a reference's attribute accesses against its target:
dereference one level (component values themselves are plain schema objects). -/
def derefIn (api : Api) : RawNode → RawNode
  | .ref r => api (lastSeg r)
  | s => s

def typeIn (api : Api) (s : RawNode) : Option String := (derefIn api s).rawType
def propsIn (api : Api) (s : RawNode) : List (String × RawNode) := (derefIn api s).rawProps
def itemsIn (api : Api) (s : RawNode) : Option RawNode := (derefIn api s).rawItems
def allOfIn (api : Api) (s : RawNode) : List RawNode := (derefIn api s).rawAllOf
def anyOfIn (api : Api) (s : RawNode) : List RawNode := (derefIn api s).rawAnyOf
def addIn (api : Api) (s : RawNode) : Bool := (derefIn api s).rawAdd
def descrIn (api : Api) (s : RawNode) : Option String := (derefIn api s).rawDescr

/-- `prop_schema.type or "object"` (Python `or`: `None` and `""` both fall back). -/
def orObject : Option String → String
  | none => "object"
  | some "" => "object"
  | some t => t

/-- The `type: str | list[str]` field of the parser's `SchemaProperty` model. -/
inductive SPType where
  | one (t : String)
  | many (ts : List String)
deriving DecidableEq

/-- The parser's `SchemaProperty` pydantic model: `name`, `type`, `items`,
`properties`, `description`, `any_of`, `all_of`. -/
inductive SchemaProperty where
  | mk (name : String) (type : SPType) (items : Option SchemaProperty)
      (properties : Option (List SchemaProperty)) (descr : Option String)
      (anyOf : Option (List SchemaProperty)) (allOf : Option (List SchemaProperty))

def SchemaProperty.name : SchemaProperty → String
  | .mk n _ _ _ _ _ _ => n

def SchemaProperty.type : SchemaProperty → SPType
  | .mk _ t _ _ _ _ _ => t

def SchemaProperty.items : SchemaProperty → Option SchemaProperty
  | .mk _ _ it _ _ _ _ => it

def SchemaProperty.properties : SchemaProperty → Option (List SchemaProperty)
  | .mk _ _ _ ps _ _ _ => ps

def SchemaProperty.descr : SchemaProperty → Option String
  | .mk _ _ _ _ d _ _ => d

def SchemaProperty.anyOf : SchemaProperty → Option (List SchemaProperty)
  | .mk _ _ _ _ _ an _ => an

def SchemaProperty.allOf : SchemaProperty → Option (List SchemaProperty)
  | .mk _ _ _ _ _ _ ao => ao

/-- `nested_prop.name = nested_name` (in-place rename of a property). -/
def SchemaProperty.withName : SchemaProperty → String → SchemaProperty
  | .mk _ t it ps d an ao, n => .mk n t it ps d an ao

/-- The parser's `Schema` pydantic model. -/
structure Schema where
  name : String
  properties : Option (List SchemaProperty)

def emptyObj : RawNode := .obj none [] none [] [] false none

/-! ### `Config._process_schema` (parser.py 203-479)

The Python function recurses with `depth + 1` and aborts when
`depth >= max_depth`; `depth` and `max_depth` only ever enter through that
comparison, so the recursion is driven by the fuel `max_depth - depth`
(structural, hence the embedding is total exactly as the depth guard makes the
Python terminate). Each `for` loop of the source is one fold below,
parameterised by `f`, the recursive call `_process_schema(·, api, depth+1,
max_depth, ·)` of the enclosing frame. -/

/-- One recursion step: `RawNode` and current visited set in, optional
`Schema` and updated visited set out. -/
def Resolve : Type := RawNode → List String → Option Schema × List String

/-- Loop of parser.py 237-252 (top-level `allOf`) and 383-398 (`allOf` inside
an object property), which are textually identical: returns
`(all_properties, all_schemas, visited)`. `if sub_result.properties:` is
Python truthiness: only a non-`None`, non-empty list extends
`all_properties`. -/
def allOfFold (api : Api) (f : Resolve) : List RawNode → List String →
    List SchemaProperty × List SchemaProperty × List String
  | [], v => ([], [], v)
  | s :: rest, v =>
    let (result, v1) := f s v
    let (accP, accS) :=
      match result with
      | some r =>
        (match r.properties with
         | some l => if l.isEmpty = false then l else []
         | none => [],
         [SchemaProperty.mk r.name (.one "object") none r.properties
            (descrIn api s) none none])
      | none => ([], [])
    let (restP, restS, v2) := allOfFold api f rest v1
    (accP ++ restP, accS ++ restS, v2)

/-- `if sub_schema.type: types.append(sub_schema.type)` over a branch list
(parser.py 275-276, 358-359, 416-417); collection is independent of the
recursive resolution, so it is a pure pass. -/
def typesOf (api : Api) (bs : List RawNode) : List String :=
  bs.filterMap fun b =>
    match typeIn api b with
    | some t => if t = "" then none else some t
    | none => none

/-- Loop of parser.py 274-281 (top-level `anyOf`): extend
`any_of_properties` with each branch result's properties when truthy. -/
def anyOfPropsFold (api : Api) (f : Resolve) : List RawNode → List String →
    List SchemaProperty × List String
  | [], v => ([], v)
  | s :: rest, v =>
    let (result, v1) := f s v
    let acc :=
      match result with
      | some r => (r.properties).getD []
      | none => []
    let (restAcc, v2) := anyOfPropsFold api f rest v1
    (acc ++ restAcc, v2)

/-- Loop of parser.py 357-373 and 415-431 (textually identical `anyOf`
handling inside object / nested properties): build `any_of_schemas`, one
converted `SchemaProperty` per branch that resolves. -/
def anyOfSchemasFold (api : Api) (f : Resolve) : List RawNode → List String →
    List SchemaProperty × List String
  | [], v => ([], v)
  | s :: rest, v =>
    let (result, v1) := f s v
    let acc :=
      match result with
      | some r =>
        [SchemaProperty.mk r.name (.one (orObject (typeIn api s))) none
           r.properties (descrIn api s) none none]
      | none => []
    let (restAcc, v2) := anyOfSchemasFold api f rest v1
    (acc ++ restAcc, v2)

/-- Loop of parser.py 311-331: the properties of an array item that is a
reference to an `object` component; `object`-typed item properties recurse. -/
def itemPropsFold (api : Api) (f : Resolve) : List (String × RawNode) →
    List String → List SchemaProperty × List String
  | [], v => ([], v)
  | (ipn, ips) :: rest, v =>
    let ipt := orObject (typeIn api ips)
    let (pp, v1) :=
      if ipt = "object" then
        let (nested, v1) := f ips v
        (match nested with
         | some n => n.properties
         | none => none, v1)
      else (none, v)
    let (restAcc, v2) := itemPropsFold api f rest v1
    (SchemaProperty.mk ipn (.one ipt) none pp (descrIn api ips) none none
       :: restAcc, v2)

/-- Loop of parser.py 406-448: nested declared properties of a plain
`object`-typed property. A child with `anyOf` becomes a union property; any
other child is resolved recursively and, when the result has a non-empty
property list, contributes exactly its first property renamed to the child's
declared name; otherwise it contributes nothing. -/
def nestedPropsFold (api : Api) (f : Resolve) : List (String × RawNode) →
    List String → List SchemaProperty × List String
  | [], v => ([], v)
  | (nested_name, nested_schema) :: rest, v =>
    if (anyOfIn api nested_schema).isEmpty = false then
      let branches := anyOfIn api nested_schema
      let types := typesOf api branches
      let (any_of_schemas, v1) := anyOfSchemasFold api f branches v
      let np := SchemaProperty.mk nested_name
        (if types.isEmpty = false then .many types else .one "object") none none
        (descrIn api nested_schema) (some any_of_schemas) none
      let (restAcc, v2) := nestedPropsFold api f rest v1
      (np :: restAcc, v2)
    else
      let (ns, v1) := f nested_schema v
      match ns with
      | some n =>
        match n.properties with
        | some (p :: _) =>
          let (restAcc, v2) := nestedPropsFold api f rest v1
          (p.withName nested_name :: restAcc, v2)
        | _ => nestedPropsFold api f rest v1
      | none => nestedPropsFold api f rest v1

/-- Loop of parser.py 297-450: one `SchemaProperty` per declared property, in
document order. The fields of the property are computed by the same branch
structure as the source (`array` items / reference / `anyOf` / `allOf` /
`additionalProperties` / plain nested object / scalar). -/
def propsFold (api : Api) (f : Resolve) : List (String × RawNode) →
    List String → List SchemaProperty × List String
  | [], v => ([], v)
  | (prop_name, prop_schema) :: rest, v =>
    let prop_type := orObject (typeIn api prop_schema)
    let (ptype, pitems, pprops, panyOf, pallOf, v1) :=
      if prop_type = "array" ∧ (itemsIn api prop_schema).isSome then
        match itemsIn api prop_schema with
        | some item_schema =>
          if item_schema.isRef then
            let item_name := lastSeg (match item_schema with
              | .ref r => r
              | _ => "")
            let resolved_item := api item_name
            if typeIn api resolved_item = some "object" then
              let (item_properties, v1) :=
                itemPropsFold api f (propsIn api resolved_item) v
              (SPType.one prop_type,
               some (SchemaProperty.mk item_name (.one "object") none
                 (some item_properties) (descrIn api item_schema) none none),
               none, none, none, v1)
            else (SPType.one prop_type, none, none, none, none, v)
          else
            (SPType.one prop_type,
             some (SchemaProperty.mk "item" (.one (orObject (typeIn api item_schema)))
               none none (descrIn api item_schema) none none),
             none, none, none, v)
        | none => (SPType.one prop_type, none, none, none, none, v)
      else if prop_type = "object" then
        if prop_schema.isRef then
          let (nested, v1) := f prop_schema v
          (SPType.one prop_type, none,
           match nested with
           | some n => n.properties
           | none => none, none, none, v1)
        else if (anyOfIn api prop_schema).isEmpty = false then
          let branches := anyOfIn api prop_schema
          let types := typesOf api branches
          let (any_of_schemas, v1) := anyOfSchemasFold api f branches v
          ((if types.isEmpty = false then SPType.many types else SPType.one "object"),
           none, none, some any_of_schemas, none, v1)
        else if (allOfIn api prop_schema).isEmpty = false then
          let (all_properties, all_schemas, v1) :=
            allOfFold api f (allOfIn api prop_schema) v
          if all_properties.isEmpty = false then
            (SPType.one prop_type, none, some all_properties, none,
             some all_schemas, v1)
          else (SPType.one prop_type, none, none, none, none, v1)
        else if addIn api prop_schema then
          (SPType.one prop_type, none, none, none, none, v)
        else
          let (nested_properties, v1) :=
            nestedPropsFold api f (propsIn api prop_schema) v
          (SPType.one prop_type, none, some nested_properties, none, none, v1)
      else (SPType.one prop_type, none, none, none, none, v)
    let (restAcc, v2) := propsFold api f rest v1
    (SchemaProperty.mk prop_name ptype pitems pprops (descrIn api prop_schema)
       panyOf pallOf :: restAcc, v2)

/-- parser.py 233-479 after the depth and cycle checks: dispatch on
`allOf` / `anyOf` / `properties` / root-level `array`, falling through to
`Schema(name, properties=[])`. -/
def processBody (api : Api) (f : Resolve) (schema_name : String)
    (resolved : RawNode) (visited : List String) : Option Schema × List String :=
  if (allOfIn api resolved).isEmpty = false then
    let (all_properties, all_schemas, v2) :=
      allOfFold api f (allOfIn api resolved) visited
    if all_properties.isEmpty = false then
      (some ⟨schema_name,
         some [SchemaProperty.mk "merged" (.one "object") none
           (some all_properties) (descrIn api resolved) none
           (some all_schemas)]⟩, v2)
    else (none, v2)
  else if (anyOfIn api resolved).isEmpty = false then
    let types := typesOf api (anyOfIn api resolved)
    let (any_of_properties, v2) :=
      anyOfPropsFold api f (anyOfIn api resolved) visited
    (some ⟨schema_name,
       some [SchemaProperty.mk "any_of"
         (if types.isEmpty = false then .many types else .one "object") none none
         (descrIn api resolved)
         (if any_of_properties.isEmpty = false then some any_of_properties else none)
         none]⟩, v2)
  else if (propsIn api resolved).isEmpty = false then
    let (properties, v2) := propsFold api f (propsIn api resolved) visited
    (some ⟨schema_name, some properties⟩, v2)
  else if typeIn api resolved = some "array" then
    match itemsIn api resolved with
    | none => (some ⟨schema_name, some []⟩, visited)
    | some item =>
      let (processed_items, v2) := f item visited
      match processed_items with
      | none => (some ⟨schema_name, some []⟩, v2)
      | some pi =>
        (some ⟨schema_name,
           some [SchemaProperty.mk "inline" (.one "array")
             (some (SchemaProperty.mk "item" (.one (orObject (typeIn api item)))
               none pi.properties (descrIn api item) none none))
             none (descrIn api resolved) none none]⟩, v2)
  else (some ⟨schema_name, some []⟩, visited)

/-- The recursion of `Config._process_schema`, by fuel
`max_depth - depth`: fuel `0` is the `depth >= max_depth` guard; a `$ref`
already in `visited` is the detected cycle (both return `None`, leaving the
visited set untouched); a fresh `$ref` is added to the visited set and
resolved against the components table. -/
def processVia (api : Api) : Nat → RawNode → List String →
    Option Schema × List String
  | 0, _, visited => (none, visited)
  | fuel + 1, schema, visited =>
    let f : Resolve := fun s v => processVia api fuel s v
    match schema with
    | .ref r =>
      if r ∈ visited then (none, visited)
      else processBody api f (lastSeg r) (api (lastSeg r)) (r :: visited)
    | s => processBody api f "inline" s visited
termination_by structural fuel => fuel

/-- `Config._process_schema(schema, api, depth, max_depth, visited)`
(parser.py 203-479). `depth` and `max_depth` enter the source only through
`depth >= max_depth` at the top of each frame and `depth + 1` at each
recursive call, i.e. purely through the difference `max_depth - depth`. -/
def processSchema (api : Api) (schema : RawNode) (depth : Nat)
    (max_depth : Nat) (visited : List String) : Option Schema × List String :=
  processVia api (max_depth - depth) schema visited

/-! ### Helper lemmas about the resolver -/

/-- A reference already in the visited set resolves to `None` with the visited
set unchanged, at every depth (parser.py 220-222; the depth guard at 213-215
returns the same pair). -/
theorem processVia_ref_visited (api : Api) (r : String) (fuel : Nat)
    (v : List String) (h : r ∈ v) :
    processVia api fuel (.ref r) v = (none, v) := by
  cases fuel with
  | zero => rfl
  | succ k => simp [processVia, h]

theorem processSchema_ref_visited (api : Api) (r : String) (d m : Nat)
    (v : List String) (h : r ∈ v) :
    processSchema api (.ref r) d m v = (none, v) :=
  processVia_ref_visited api r (m - d) v h

/-- Unfolding step for a fresh reference when fuel remains. -/
theorem processVia_ref_fresh (api : Api) (r : String) (k : Nat)
    (v : List String) (h : r ∉ v) :
    processVia api (k + 1) (.ref r) v =
      processBody api (fun s w => processVia api k s w) (lastSeg r)
        (api (lastSeg r)) (r :: v) := by
  simp [processVia, h]

/-- Unfolding step for an inline (non-reference) node when fuel remains. -/
theorem processVia_obj (api : Api) (k : Nat) (v : List String)
    (t : Option String) (ps : List (String × RawNode)) (it : Option RawNode)
    (ao an : List RawNode) (ad : Bool) (ds : Option String) :
    processVia api (k + 1) (.obj t ps it ao an ad ds) v =
      processBody api (fun s w => processVia api k s w) "inline"
        (.obj t ps it ao an ad ds) v := by
  simp [processVia]

/-! ### C1 -/

/-- C1: resolving a schema whose component refers back to itself (`A → A`)
terminates (the embedding is a total function, mirroring the depth-guarded
recursion) and yields a `Schema` in which the cyclic branch is absent: the
self-referencing property resolves to `null`, so its `properties` field stays
`None`, while the enclosing schema is still returned. -/
theorem c1_self_cycle_terminates (api : Api) (r p : String) (m : Nat)
    (hm : 0 < m)
    (hA : api (lastSeg r) =
      .obj (some "object") [(p, .ref r)] none [] [] false none) :
    processSchema api (.ref r) 0 m [] =
      (some ⟨lastSeg r,
         some [SchemaProperty.mk p (.one "object") none none none none none]⟩,
       [r]) := by
  obtain ⟨k, rfl⟩ : ∃ k, m = k + 1 := ⟨m - 1, by omega⟩
  show processVia api (k + 1 - 0) (.ref r) [] = _
  rw [Nat.sub_zero, processVia_ref_fresh api r k [] (by simp)]
  rw [processBody, hA]
  simp [allOfIn, anyOfIn, propsIn, derefIn, RawNode.rawAllOf, RawNode.rawAnyOf,
    RawNode.rawProps, propsFold, typeIn, RawNode.rawType, hA, orObject,
    RawNode.isRef, processVia_ref_visited, descrIn, RawNode.rawDescr]

def apiSelf : Api := fun _ =>
  .obj (some "object") [("self", .ref "#/components/schemas/A")] none [] [] false none

theorem c1_self_cycle_terminates_witness :
    processSchema apiSelf (.ref "#/components/schemas/A") 0 10 [] =
      (some ⟨"A",
         some [SchemaProperty.mk "self" (.one "object") none none none none none]⟩,
       ["#/components/schemas/A"]) :=
  c1_self_cycle_terminates apiSelf "#/components/schemas/A" "self" 10
    (by decide) rfl

/-! ### C2 -/

def refB : String := "#/components/schemas/B"

def apiSib : Api := fun n =>
  if n = "B" then
    .obj (some "object") [("n", .obj (some "string") [] none [] [] false none)]
      none [] [] false none
  else emptyObj

def rootSib : RawNode :=
  .obj (some "object") [("x", .ref refB), ("y", .ref refB)] none [] [] false none

/-- C2 counterexample: the reference `B` is not cyclic (resolved on a fresh
path it yields a full schema, first conjunct), yet when the same document
resolves an object with two sibling properties `x` and `y` both referring to
`B`, only `x` obtains `B`'s properties; for `y` the reference yields `null`
(its `properties` stay `None`), because `_process_schema` shares one mutable
`visited` set across sibling branches. This refutes "a reference yields null
exactly when it was already seen on the current recursion path" and "a
reference that was fully resolved in one branch still resolves normally when
it occurs again in a sibling branch". -/
theorem c2_counterexample :
    (processSchema apiSib (.ref refB) 1 10 []).1 =
      some ⟨"B", some [SchemaProperty.mk "n" (.one "string") none none none none none]⟩ ∧
    processSchema apiSib rootSib 0 10 [] =
      (some ⟨"inline",
         some [SchemaProperty.mk "x" (.one "object") none
                 (some [SchemaProperty.mk "n" (.one "string") none none none none none])
                 none none none,
               SchemaProperty.mk "y" (.one "object") none none none none none]⟩,
       [refB]) :=
  ⟨rfl, rfl⟩

/-- C2 amended: during resolution a reference yields `null` whenever it is
already in the visited set, which is shared by the whole resolution call and
accumulates every reference resolved so far — not only references on the
current recursion path. The detected repeat only nulls that sub-schema:
resolution continues for sibling branches, so the first occurrence of a
reference resolves normally and every later occurrence (cyclic or not)
yields `null`. -/
theorem c2_amended_shared_visited :
    (∀ (api : Api) (r : String) (d m : Nat) (v : List String), r ∈ v →
        processSchema api (.ref r) d m v = (none, v)) ∧
    (∀ (api : Api) (r px py pn : String) (m : Nat) (v0 : List String),
        2 ≤ m → r ∉ v0 →
        api (lastSeg r) =
          .obj (some "object")
            [(pn, .obj (some "string") [] none [] [] false none)]
            none [] [] false none →
        processSchema api
            (.obj (some "object") [(px, .ref r), (py, .ref r)] none [] [] false none)
            0 m v0 =
          (some ⟨"inline",
             some [SchemaProperty.mk px (.one "object") none
                     (some [SchemaProperty.mk pn (.one "string") none none none none none])
                     none none none,
                   SchemaProperty.mk py (.one "object") none none none none none]⟩,
           r :: v0)) := by
  constructor
  · exact fun api r d m v h => processSchema_ref_visited api r d m v h
  · intro api r px py pn m v0 hm hr hA
    obtain ⟨k, rfl⟩ : ∃ k, m = k + 2 := ⟨m - 2, by omega⟩
    show processVia api (k + 2 - 0) _ v0 = _
    rw [Nat.sub_zero, processVia_obj]
    rw [processBody]
    simp only [allOfIn, anyOfIn, propsIn, derefIn, RawNode.rawAllOf,
      RawNode.rawAnyOf, RawNode.rawProps, List.isEmpty, typeIn, RawNode.rawType,
      descrIn, RawNode.rawDescr]
    rw [propsFold]
    simp only [typeIn, derefIn, hA, RawNode.rawType, orObject, RawNode.isRef,
      descrIn, RawNode.rawDescr]
    rw [processVia_ref_fresh api r k v0 hr, processBody, hA]
    simp only [allOfIn, anyOfIn, propsIn, derefIn, RawNode.rawAllOf,
      RawNode.rawAnyOf, RawNode.rawProps, List.isEmpty, typeIn, RawNode.rawType,
      descrIn, RawNode.rawDescr]
    rw [propsFold]
    simp only [typeIn, derefIn, RawNode.rawType, orObject, RawNode.isRef,
      descrIn, RawNode.rawDescr]
    rw [propsFold]
    rw [propsFold]
    simp only [typeIn, derefIn, hA, RawNode.rawType, orObject, RawNode.isRef,
      descrIn, RawNode.rawDescr,
      processVia_ref_visited api r (k + 1) (r :: v0) (by simp)]
    rw [propsFold]
    simp [processVia_ref_visited api r (k + 1) (r :: v0) (by simp)]

theorem c2_amended_shared_visited_witness :
    processSchema apiSib (.ref refB) 3 10 [refB] = (none, [refB]) ∧
    processSchema apiSib rootSib 0 10 [] =
      (some ⟨"inline",
         some [SchemaProperty.mk "x" (.one "object") none
                 (some [SchemaProperty.mk "n" (.one "string") none none none none none])
                 none none none,
               SchemaProperty.mk "y" (.one "object") none none none none none]⟩,
       [refB]) :=
  ⟨c2_amended_shared_visited.1 apiSib refB 3 10 [refB] (by simp),
   c2_amended_shared_visited.2 apiSib refB "x" "y" "n" 10 [] (by omega)
     (by simp) rfl⟩

/-! ### C3 -/

def leafNode : RawNode :=
  .obj (some "object") [("leaf", .obj (some "string") [] none [] [] false none)]
    none [] [] false none

def linkNode (next : String) : RawNode :=
  .obj (some "object") [("f", .ref ("#/components/schemas/" ++ next))]
    none [] [] false none

/-- A document whose schema `C0` is nested through references to depth 10
(`C0 → … → C9`, the innermost holding a scalar leaf). -/
def apiChainTen : Api := fun n =>
  if n = "C0" then linkNode "C1" else if n = "C1" then linkNode "C2"
  else if n = "C2" then linkNode "C3" else if n = "C3" then linkNode "C4"
  else if n = "C4" then linkNode "C5" else if n = "C5" then linkNode "C6"
  else if n = "C6" then linkNode "C7" else if n = "C7" then linkNode "C8"
  else if n = "C8" then linkNode "C9" else if n = "C9" then leafNode
  else emptyObj

/-- The same chain one level deeper (`C0 → … → C10`). -/
def apiChainEleven : Api := fun n =>
  if n = "C0" then linkNode "C1" else if n = "C1" then linkNode "C2"
  else if n = "C2" then linkNode "C3" else if n = "C3" then linkNode "C4"
  else if n = "C4" then linkNode "C5" else if n = "C5" then linkNode "C6"
  else if n = "C6" then linkNode "C7" else if n = "C7" then linkNode "C8"
  else if n = "C8" then linkNode "C9" else if n = "C9" then linkNode "C10"
  else if n = "C10" then leafNode
  else emptyObj

def rootProps : Option Schema → Option (List SchemaProperty)
  | some s => s.properties
  | none => none

/-- Descend one level: the `properties` of the first property of the list. -/
def hop : Option (List SchemaProperty) → Option (List SchemaProperty)
  | some (p :: _) => p.properties
  | _ => none

def hopN : Nat → Option (List SchemaProperty) → Option (List SchemaProperty)
  | 0, x => x
  | n + 1, x => hopN n (hop x)

/-- C3: with the default `max_depth = 10` (parser.py 205), (i) any call at
depth `>= 10` returns `None` for that branch with the visited set untouched;
(ii) a schema nested exactly to depth 10 resolves completely — after nine
descents the innermost scalar leaf is present; (iii) one level deeper the
whole resolution still succeeds (only the too-deep branch is aborted), and
(iv) after nine descents the depth-10 branch has resolved to `null`: the
object-typed property is left with no `properties`. -/
theorem c3_depth_guard :
    (∀ (api : Api) (s : RawNode) (d : Nat) (v : List String), 10 ≤ d →
        processSchema api s d 10 v = (none, v)) ∧
    hopN 9 (rootProps
        (processSchema apiChainTen (.ref "#/components/schemas/C0") 0 10 []).1) =
      some [SchemaProperty.mk "leaf" (.one "string") none none none none none] ∧
    (processSchema apiChainEleven (.ref "#/components/schemas/C0") 0 10 []).1.isSome
      = true ∧
    hopN 9 (rootProps
        (processSchema apiChainEleven (.ref "#/components/schemas/C0") 0 10 []).1) =
      some [SchemaProperty.mk "f" (.one "object") none none none none none] := by
  refine ⟨?_, rfl, rfl, rfl⟩
  intro api s d v hd
  show processVia api (10 - d) s v = (none, v)
  have h0 : 10 - d = 0 := by omega
  rw [h0]
  rfl

theorem c3_depth_guard_witness :
    processSchema apiChainTen (.ref "#/components/schemas/C0") 12 10 ["z"] =
      (none, ["z"]) :=
  c3_depth_guard.1 apiChainTen (.ref "#/components/schemas/C0") 12 ["z"]
    (by omega)

/-! ### C4 -/

/-- Rewriting a child call (`depth + 1`) to its fuel form. -/
theorem processSchema_succ (api : Api) (s : RawNode) (d m k : Nat)
    (v : List String) (hk : m - d = k + 1) :
    processSchema api s (d + 1) m v = processVia api k s v := by
  show processVia api (m - (d + 1)) s v = _
  have : m - (d + 1) = k := by omega
  rw [this]

/-- "No branch yields properties": the branch result is `None`, or a `Schema`
whose property list is `None` or empty (both falsy in
`if sub_result.properties:`). -/
def noMergeProps : Option Schema → Prop
  | none => True
  | some s => s.properties = none ∨ s.properties = some []

/-- C4: resolving an inline `allOf` of two schemas whose branches resolve to
property lists `P1`, `P2` yields a `Schema` with the single synthetic
property `"merged"` carrying the concatenation `P1 ++ P2` (for disjoint
branches, their union) as its property list and both original branches,
converted to `SchemaProperty`, under `all_of`; and an `allOf` in which no
branch yields properties resolves to `None`. -/
theorem c4_all_of_merge :
    (∀ (api : Api) (ty : Option String) (pr : List (String × RawNode))
        (itm : Option RawNode) (ao : List RawNode) (ad : Bool)
        (ds : Option String) (b1 b2 : RawNode) (n1 n2 : String)
        (P1 P2 : List SchemaProperty) (v0 v1 v2 : List String) (d m : Nat),
        d < m →
        processSchema api b1 (d + 1) m v0 = (some ⟨n1, some P1⟩, v1) →
        processSchema api b2 (d + 1) m v1 = (some ⟨n2, some P2⟩, v2) →
        P1.isEmpty = false → P2.isEmpty = false →
        processSchema api (.obj ty pr itm [b1, b2] ao ad ds) d m v0 =
          (some ⟨"inline",
             some [SchemaProperty.mk "merged" (.one "object") none
               (some (P1 ++ P2)) ds none
               (some [SchemaProperty.mk n1 (.one "object") none (some P1)
                        (descrIn api b1) none none,
                      SchemaProperty.mk n2 (.one "object") none (some P2)
                        (descrIn api b2) none none])]⟩, v2)) ∧
    (∀ (api : Api) (ty : Option String) (pr : List (String × RawNode))
        (itm : Option RawNode) (ao : List RawNode) (ad : Bool)
        (ds : Option String) (b1 b2 : RawNode) (r1 r2 : Option Schema)
        (v0 v1 v2 : List String) (d m : Nat),
        d < m →
        processSchema api b1 (d + 1) m v0 = (r1, v1) →
        processSchema api b2 (d + 1) m v1 = (r2, v2) →
        noMergeProps r1 → noMergeProps r2 →
        (processSchema api (.obj ty pr itm [b1, b2] ao ad ds) d m v0).1 = none) := by
  constructor
  · intro api ty pr itm ao ad ds b1 b2 n1 n2 P1 P2 v0 v1 v2 d m hdm h1 h2 hP1 hP2
    obtain ⟨k, hk⟩ : ∃ k, m - d = k + 1 := ⟨m - d - 1, by omega⟩
    rw [processSchema_succ api b1 d m k v0 hk] at h1
    rw [processSchema_succ api b2 d m k v1 hk] at h2
    show processVia api (m - d) _ v0 = _
    rw [hk, processVia_obj, processBody]
    simp only [allOfIn, derefIn, RawNode.rawAllOf, descrIn, RawNode.rawDescr]
    simp only [allOfFold]
    rcases P1 with _ | ⟨p1, P1t⟩
    · simp at hP1
    · simp [h1, h2, hP2, Schema.properties, Schema.name, descrIn, derefIn,
        RawNode.rawDescr]
  · intro api ty pr itm ao ad ds b1 b2 r1 r2 v0 v1 v2 d m hdm h1 h2 hr1 hr2
    obtain ⟨k, hk⟩ : ∃ k, m - d = k + 1 := ⟨m - d - 1, by omega⟩
    rw [processSchema_succ api b1 d m k v0 hk] at h1
    rw [processSchema_succ api b2 d m k v1 hk] at h2
    show (processVia api (m - d) _ v0).1 = _
    rw [hk, processVia_obj, processBody]
    simp only [allOfIn, derefIn, RawNode.rawAllOf, descrIn, RawNode.rawDescr]
    simp only [allOfFold]
    rcases r1 with _ | s1
    · rcases r2 with _ | s2
      · simp [h1, h2]
      · rcases hr2 with h | h <;> simp [h1, h2, h, Schema.properties]
    · rcases r2 with _ | s2
      · rcases hr1 with h | h <;> simp [h1, h2, h, Schema.properties]
      · rcases hr1 with h | h <;> rcases hr2 with h2p | h2p <;>
          simp [h1, h2, h, h2p, Schema.properties]

def apiEmpty : Api := fun _ => emptyObj

def allOfNode : RawNode :=
  .obj none [] none
    [.obj (some "object") [("a", .obj (some "string") [] none [] [] false none)]
       none [] [] false none,
     .obj (some "object") [("b", .obj (some "integer") [] none [] [] false none)]
       none [] [] false none]
    [] false (some "two merged")

theorem c4_all_of_merge_witness :
    processSchema apiEmpty allOfNode 0 10 [] =
      (some ⟨"inline",
         some [SchemaProperty.mk "merged" (.one "object") none
           (some [SchemaProperty.mk "a" (.one "string") none none none none none,
                  SchemaProperty.mk "b" (.one "integer") none none none none none])
           (some "two merged") none
           (some [SchemaProperty.mk "inline" (.one "object") none
                    (some [SchemaProperty.mk "a" (.one "string") none none none none none])
                    none none none,
                  SchemaProperty.mk "inline" (.one "object") none
                    (some [SchemaProperty.mk "b" (.one "integer") none none none none none])
                    none none none])]⟩, []) ∧
    (processSchema apiEmpty
        (.obj none [] none
          [.obj (some "string") [] none [] [] false none,
           .obj (some "integer") [] none [] [] false none] [] false none)
        0 10 []).1 = none := by
  constructor
  · exact c4_all_of_merge.1 apiEmpty none [] none [] false (some "two merged")
      (.obj (some "object") [("a", .obj (some "string") [] none [] [] false none)]
         none [] [] false none)
      (.obj (some "object") [("b", .obj (some "integer") [] none [] [] false none)]
         none [] [] false none)
      "inline" "inline"
      [SchemaProperty.mk "a" (.one "string") none none none none none]
      [SchemaProperty.mk "b" (.one "integer") none none none none none]
      [] [] [] 0 10 (by omega) rfl rfl rfl rfl
  · exact c4_all_of_merge.2 apiEmpty none [] none [] false none
      (.obj (some "string") [] none [] [] false none)
      (.obj (some "integer") [] none [] [] false none)
      (some ⟨"inline", some []⟩) (some ⟨"inline", some []⟩) [] [] [] 0 10
      (by omega) rfl rfl (Or.inr rfl) (Or.inr rfl)

/-! ### C5 -/

/-- C5: resolving an inline `anyOf` schema below the depth limit always
returns a non-`None` `Schema` holding the single synthetic property
`"any_of"`, whose `type` is the list of the branches' declared types
(`"object"` when no branch declares one) and whose `any_of` field holds the
properties gathered from the branches that resolved, or `None` when no branch
contributed properties (first conjunct). Branches that do not resolve
(cycle / depth) are skipped by the gathering loop (second conjunct), while a
resolved branch contributes exactly its property list (third conjunct). -/
theorem c5_any_of_union :
    (∀ (api : Api) (ty : Option String) (pr : List (String × RawNode))
        (itm : Option RawNode) (ad : Bool) (ds : Option String)
        (B : List RawNode) (d m : Nat) (v : List String),
        B.isEmpty = false → d < m →
        processSchema api (.obj ty pr itm [] B ad ds) d m v =
          (some ⟨"inline",
             some [SchemaProperty.mk "any_of"
               (if (typesOf api B).isEmpty = false then .many (typesOf api B)
                else .one "object") none none ds
               (if (anyOfPropsFold api (fun s w => processVia api (m - (d + 1)) s w) B v).1.isEmpty
                   = false
                then some (anyOfPropsFold api
                  (fun s w => processVia api (m - (d + 1)) s w) B v).1
                else none) none]⟩,
           (anyOfPropsFold api (fun s w => processVia api (m - (d + 1)) s w) B v).2)) ∧
    (∀ (api : Api) (f : Resolve) (b : RawNode) (rest : List RawNode)
        (w w1 : List String),
        f b w = (none, w1) →
        anyOfPropsFold api f (b :: rest) w = anyOfPropsFold api f rest w1) ∧
    (∀ (api : Api) (f : Resolve) (b : RawNode) (rest : List RawNode)
        (nb : String) (P : List SchemaProperty) (w w1 : List String),
        f b w = (some ⟨nb, some P⟩, w1) →
        anyOfPropsFold api f (b :: rest) w =
          (P ++ (anyOfPropsFold api f rest w1).1,
           (anyOfPropsFold api f rest w1).2)) := by
  refine ⟨?_, ?_, ?_⟩
  · intro api ty pr itm ad ds B d m v hB hdm
    obtain ⟨k, hk⟩ : ∃ k, m - d = k + 1 := ⟨m - d - 1, by omega⟩
    have hk2 : m - (d + 1) = k := by omega
    show processVia api (m - d) _ v = _
    rw [hk, processVia_obj, processBody, hk2]
    simp only [allOfIn, anyOfIn, derefIn, RawNode.rawAllOf, RawNode.rawAnyOf,
      descrIn, RawNode.rawDescr, List.isEmpty, hB]
    rcases B with _ | ⟨b, B⟩
    · simp at hB
    · simp
  · intro api f b rest w w1 hb
    simp [anyOfPropsFold, hb]
  · intro api f b rest nb P w w1 hb
    simp [anyOfPropsFold, hb, Schema.properties]

def anyOfNode : RawNode :=
  .obj none [] none []
    [.obj (some "string") [] none [] [] false (some "a string"),
     .obj (some "object") [("p", .obj (some "integer") [] none [] [] false none)]
       none [] [] false none]
    false (some "a union")

theorem c5_any_of_union_witness :
    processSchema apiEmpty anyOfNode 0 10 [] =
      (some ⟨"inline",
         some [SchemaProperty.mk "any_of" (.many ["string", "object"]) none none
           (some "a union")
           (some [SchemaProperty.mk "p" (.one "integer") none none none none none])
           none]⟩, []) ∧
    anyOfPropsFold apiEmpty
        (fun s w => processVia apiEmpty 9 s w)
        [.ref "#/components/schemas/Q"]
        ["#/components/schemas/Q"] =
      anyOfPropsFold apiEmpty (fun s w => processVia apiEmpty 9 s w) []
        ["#/components/schemas/Q"] ∧
    anyOfPropsFold apiEmpty (fun s w => processVia apiEmpty 9 s w)
        [.obj (some "object")
           [("p", .obj (some "integer") [] none [] [] false none)]
           none [] [] false none] [] =
      ([SchemaProperty.mk "p" (.one "integer") none none none none none], []) := by
  refine ⟨?_, ?_, ?_⟩
  · exact c5_any_of_union.1 apiEmpty none [] none false (some "a union")
      [.obj (some "string") [] none [] [] false (some "a string"),
       .obj (some "object") [("p", .obj (some "integer") [] none [] [] false none)]
         none [] [] false none]
      0 10 [] rfl (by omega)
  · exact c5_any_of_union.2.1 apiEmpty (fun s w => processVia apiEmpty 9 s w)
      (.ref "#/components/schemas/Q") [] ["#/components/schemas/Q"]
      ["#/components/schemas/Q"] rfl
  · exact c5_any_of_union.2.2 apiEmpty (fun s w => processVia apiEmpty 9 s w)
      (.obj (some "object") [("p", .obj (some "integer") [] none [] [] false none)]
        none [] [] false none)
      [] "inline" [SchemaProperty.mk "p" (.one "integer") none none none none none]
      [] [] rfl

/-! ### C10 -/

/-- C10: in the plain nested-object branch (parser.py 405-448: an
`object`-typed property that is not a reference and has no `anyOf`, `allOf`
or `additionalProperties`), the property's children are flattened by
`nestedPropsFold` (first conjunct); a child without `anyOf` whose recursive
resolution returns a `Schema` with a non-empty property list contributes
exactly one flattened property — the first property of that resolved
`Schema`, renamed in place to the child's declared name — and every further
property of the resolved child is discarded (second conjunct); a child
resolving to a `Schema` with an empty property list contributes nothing
(third conjunct). -/
theorem c10_nested_first_property :
    (∀ (api : Api) (t cty : Option String) (itm citm : Option RawNode)
        (ad : Bool) (ds cds : Option String) (pn : String)
        (children : List (String × RawNode)) (d m : Nat) (v : List String),
        d < m → orObject cty = "object" →
        processSchema api
            (.obj t [(pn, .obj cty children citm [] [] false cds)] itm [] [] ad ds)
            d m v =
          (some ⟨"inline",
             some [SchemaProperty.mk pn (.one "object") none
               (some (nestedPropsFold api
                 (fun s w => processVia api (m - (d + 1)) s w) children v).1)
               cds none none]⟩,
           (nestedPropsFold api
             (fun s w => processVia api (m - (d + 1)) s w) children v).2)) ∧
    (∀ (api : Api) (f : Resolve) (n : String) (cs : RawNode)
        (rest : List (String × RawNode)) (nm : String) (p : SchemaProperty)
        (tail : List SchemaProperty) (w w1 : List String),
        anyOfIn api cs = [] →
        f cs w = (some ⟨nm, some (p :: tail)⟩, w1) →
        nestedPropsFold api f ((n, cs) :: rest) w =
          (p.withName n :: (nestedPropsFold api f rest w1).1,
           (nestedPropsFold api f rest w1).2)) ∧
    (∀ (api : Api) (f : Resolve) (n : String) (cs : RawNode)
        (rest : List (String × RawNode)) (nm : String) (w w1 : List String),
        anyOfIn api cs = [] →
        f cs w = (some ⟨nm, some []⟩, w1) →
        nestedPropsFold api f ((n, cs) :: rest) w =
          nestedPropsFold api f rest w1) := by
  refine ⟨?_, ?_, ?_⟩
  · intro api t cty itm citm ad ds cds pn children d m v hdm hcty
    obtain ⟨k, hk⟩ : ∃ k, m - d = k + 1 := ⟨m - d - 1, by omega⟩
    have hk2 : m - (d + 1) = k := by omega
    show processVia api (m - d) _ v = _
    rw [hk, processVia_obj, processBody, hk2]
    simp only [allOfIn, anyOfIn, propsIn, derefIn, RawNode.rawAllOf,
      RawNode.rawAnyOf, RawNode.rawProps, List.isEmpty, descrIn,
      RawNode.rawDescr]
    rw [propsFold]
    simp only [typeIn, derefIn, RawNode.rawType, hcty, RawNode.isRef,
      anyOfIn, allOfIn, addIn, RawNode.rawAnyOf, RawNode.rawAllOf,
      RawNode.rawAdd, descrIn, RawNode.rawDescr]
    rw [propsFold]
    simp [propsIn, derefIn, RawNode.rawProps]
  · intro api f n cs rest nm p tail w w1 hany hcs
    rw [nestedPropsFold]
    simp [hany, hcs, Schema.properties]
  · intro api f n cs rest nm w w1 hany hcs
    rw [nestedPropsFold]
    simp [hany, hcs, Schema.properties]

def apiTwo : Api := fun n =>
  if n = "Two" then
    .obj (some "object")
      [("q1", .obj (some "string") [] none [] [] false none),
       ("q2", .obj (some "integer") [] none [] [] false none)]
      none [] [] false none
  else emptyObj

theorem c10_nested_first_property_witness :
    processSchema apiTwo
        (.obj none
          [("kid", .obj (some "object")
             [("two", .ref "#/components/schemas/Two")] none [] [] false none)]
          none [] [] false none)
        0 10 [] =
      (some ⟨"inline",
         some [SchemaProperty.mk "kid" (.one "object") none
           (some [SchemaProperty.mk "two" (.one "string") none none none none none])
           none none none]⟩,
       ["#/components/schemas/Two"]) ∧
    nestedPropsFold apiTwo (fun s w => processVia apiTwo 9 s w)
        [("two", .ref "#/components/schemas/Two")] [] =
      ((SchemaProperty.mk "q1" (.one "string") none none none none none).withName "two"
         :: (nestedPropsFold apiTwo (fun s w => processVia apiTwo 9 s w) []
              ["#/components/schemas/Two"]).1,
       (nestedPropsFold apiTwo (fun s w => processVia apiTwo 9 s w) []
         ["#/components/schemas/Two"]).2) ∧
    nestedPropsFold apiTwo (fun s w => processVia apiTwo 9 s w)
        [("emptykid", .obj (some "object") [] none [] [] false none)] [] =
      nestedPropsFold apiTwo (fun s w => processVia apiTwo 9 s w) [] [] := by
  refine ⟨?_, ?_, ?_⟩
  · exact c10_nested_first_property.1 apiTwo none (some "object") none none
      false none none "kid" [("two", .ref "#/components/schemas/Two")] 0 10 []
      (by omega) rfl
  · exact c10_nested_first_property.2.1 apiTwo
      (fun s w => processVia apiTwo 9 s w) "two"
      (.ref "#/components/schemas/Two") [] "Two"
      (SchemaProperty.mk "q1" (.one "string") none none none none none)
      [SchemaProperty.mk "q2" (.one "integer") none none none none none]
      [] ["#/components/schemas/Two"] rfl rfl
  · exact c10_nested_first_property.2.2 apiTwo
      (fun s w => processVia apiTwo 9 s w) "emptykid"
      (.obj (some "object") [] none [] [] false none) [] "inline" [] []
      rfl rfl

/-! ### `Config._process_operation`, parameter processing (parser.py 484-506) -/

/-- A Python value as it appears in `enum` lists, `default`s and dispatch
arguments. -/
inductive PyVal where
  | vStr (s : String)
  | vInt (n : Int)
  | vBool (b : Bool)
  | vList (xs : List PyVal)
  | vDict (kvs : List (String × PyVal))
  | vNone

/-- Python truthiness of a value: `None`, `False`, `0`, `""`, `[]`, `{}` are
falsy. -/
def pyTruthy : PyVal → Bool
  | .vStr s => s ≠ ""
  | .vInt n => n ≠ 0
  | .vBool b => b
  | .vList xs => ¬xs.isEmpty
  | .vDict kvs => ¬kvs.isEmpty
  | .vNone => false

/-- `str(v)` as used when joining enum options into a description. -/
def pyStr : PyVal → String
  | .vStr s => s
  | .vInt n => toString n
  | .vBool b => if b then "True" else "False"
  | .vList _ => "[...]"
  | .vDict _ => "{...}"
  | .vNone => "None"

/-- The `schema` of a raw operation parameter (`param.schema_`): the parser
reads its `type`, `enum` and `default`. -/
structure RawParamSchema where
  type : Option String := none
  enum : Option (List PyVal) := none
  default : Option PyVal := none

/-- A raw operation parameter as `aiopenapi3` hands it to
`_process_operation`. -/
structure RawParameter where
  name : String
  inLoc : String
  required : Bool := false
  description : Option String := none
  deprecated : Option Bool := none
  allowEmptyValue : Option Bool := none
  style : Option String := none
  explode : Option Bool := none
  allowReserved : Option Bool := none
  schema_ : RawParamSchema := {}

/-- The parser's `Parameter` pydantic model (the fields `_process_operation`
fills; unset optional fields default to `None`, `required` to `False`). -/
structure Parameter where
  name : String
  inLoc : String
  required : Bool := false
  description : Option String := none
  deprecated : Option Bool := none
  allowEmptyValue : Option Bool := none
  style : Option String := none
  explode : Option Bool := none
  allowReserved : Option Bool := none
  type : Option String := none
  enum : Option (List PyVal) := none
  default : Option PyVal := none

/-- `if param.schema_.enum:` — truthy only for a present, non-empty list. -/
def enumTruthy (p : RawParameter) : Bool :=
  match p.schema_.enum with
  | some (_ :: _) => true
  | _ => false

/-- The parameter loop body of `_process_operation` (parser.py 485-506):
copies the metadata, takes the type from the parameter's schema, forces
`required = True` when the schema declares a (truthy) enum, and copies the
default only when it is truthy — `if param.schema_.default:`. -/
def processParameter (p : RawParameter) : Parameter :=
  { name := p.name
    inLoc := p.inLoc
    required := if enumTruthy p then true else p.required
    description := p.description
    deprecated := p.deprecated
    allowEmptyValue := p.allowEmptyValue
    style := p.style
    explode := p.explode
    allowReserved := p.allowReserved
    type := p.schema_.type
    enum := if enumTruthy p then p.schema_.enum else none
    default :=
      match p.schema_.default with
      | some v => if pyTruthy v then some v else none
      | none => none }

/-! ### C9 -/

/-- A query parameter whose source schema declares the empty-array default
`[]` (the shape of the `array_param[]` fixture of `src/tests/test_tools.py`). -/
def emptyDefaultParam : RawParameter :=
  { name := "array_param[]", inLoc := "query",
    description := some "An array parameter",
    schema_ := { type := some "string", default := some (.vList []) } }

/-- C9: the claim says an empty-array default is preserved; the code drops
it. `if param.schema_.default:` (parser.py 503) tests Python truthiness, and
`[]` is falsy, so the processed `Parameter` keeps `default = None` — the
empty-list default is lost (first conjunct), while a non-empty default is
preserved (second conjunct), pinning the divergence to the truthiness test. -/
theorem c9_empty_default_dropped :
    (processParameter emptyDefaultParam).default = none ∧
    (processParameter { emptyDefaultParam with
        schema_ := { type := some "string",
                     default := some (.vList [.vStr "a"]) } }).default =
      some (.vList [.vStr "a"]) :=
  ⟨rfl, rfl⟩

/-! ### The tool layer

`mcp_openapi/tools.py` itself is not among the sources; only its tests
(`src/tests/test_tools.py`) and callers (`server_manager.py`, `cli.py`) are.
The definitions below are therefore modelled from the specification (§4.2,
§4.3) and pinned, where those tests speak, to the behaviour the tests
assert. -/

def strStarts (s p : String) : Bool := p.toList.isPrefixOf s.toList

def strEnds (s p : String) : Bool := p.toList.isSuffixOf s.toList

/-- The parser's `Response` pydantic model (the parts the tool layer can
see). -/
structure Response where
  description : String
  schema_ : Option Schema := none
  format : String := "text/plain"

/-- The parser's `RequestBody` pydantic model; `content` is modelled as the
list of its content-type keys. -/
structure RequestBody where
  description : Option String := none
  content : Option (List String) := none
  required : Bool := false
  schema_ : Option Schema := none

/-- The parser's `Operation` pydantic model. -/
structure Operation where
  id : String
  summary : Option String := none
  description : Option String := none
  parameters : List Parameter := []
  request_body_ : Option RequestBody := none
  responses : List (String × Response) := []

/-- Modelled from the spec: a flattened leaf parameter of a tool descriptor
(`ToolParameter` of the missing `mcp_openapi/tools.py`): finalized `name`,
primitive `type` tag, `description`, `default`, and `request_body_field`,
the original body field name when the parameter originates from the request
body. -/
structure ToolParameter where
  name : String
  type : String
  description : String := ""
  default : Option PyVal := none
  request_body_field : Option String := none

/-- Modelled from the spec: the `Tool` descriptor of the missing
`mcp_openapi/tools.py`. -/
structure Tool where
  name : String
  description : String
  parameters : List ToolParameter
  method : String
  path : String

/-- Modelled from the spec: the tool name is the operation's id "lower-cased
with non-identifier characters normalized"; `test_tool_from_operation` pins
`TestOperation ↦ test_operation`, i.e. camel case becomes snake case. -/
def sanitizeAux : Bool → List Char → List Char
  | _, [] => []
  | first, c :: cs =>
    (if c.isUpper then (if first then [c.toLower] else ['_', c.toLower])
     else if c.isAlphanum || c = '_' then [c] else ['_']) ++ sanitizeAux false cs

def sanitizeName (s : String) : String := String.mk (sanitizeAux true s.toList)

/-- Modelled from the spec: primitive type mapping
`string→str, integer→int, number→float, boolean→bool`, arrays to a list
type. -/
def mapPrim : Option String → String
  | some "string" => "str"
  | some "integer" => "int"
  | some "number" => "float"
  | some "boolean" => "bool"
  | some "array" => "list[str]"
  | some "object" => "dict"
  | some t => t
  | none => "str"

/-- Modelled from the spec: maximum length of an enum-extended description. -/
def MAX_ENUM_DESCRIPTION_LENGTH : Nat := 100

/-- Modelled from the spec: a parameter description is extended with
`" Options: v1, v2, …"` and truncated to at most 100 characters with a
trailing `"..."` when it would exceed the maximum
(`test_tool_from_operation_with_long_enum` pins the bound and the
ellipsis). -/
def enumDescription (descr : String) (opts : List String) : String :=
  let full := descr ++ " Options: " ++ String.intercalate ", " opts
  if full.length > MAX_ENUM_DESCRIPTION_LENGTH then
    (full.take (MAX_ENUM_DESCRIPTION_LENGTH - 3)) ++ "..."
  else full

/-- Modelled from the spec: one query/path `Parameter` becomes one
`ToolParameter`; a name ending in the array-bracket marker `[]` is stripped
and pluralized with `s` and typed `list[T]`
(`array_param[] ↦ array_params : list[str]`). -/
def queryToolParam (p : Parameter) : ToolParameter :=
  let hasEnum : Bool := match p.enum with
    | some (_ :: _) => true
    | _ => false
  let base :=
    if strEnds p.name "[]" then
      { name := (p.name.dropRight 2) ++ "s",
        type := "list[" ++ mapPrim p.type ++ "]" : ToolParameter }
    else { name := p.name, type := mapPrim p.type : ToolParameter }
  { base with
    description :=
      if hasEnum then
        enumDescription (p.description.getD "") ((p.enum.getD []).map pyStr)
      else p.description.getD ""
    default := p.default }

/-- Modelled from the spec: an object branch summary of an `anyOf` body leaf
lists its property names; a scalar branch's summary is its own
description. -/
def branchSummary (b : SchemaProperty) : String :=
  match b.properties with
  | some ps =>
    "Object with properties: " ++ String.intercalate ", " (ps.map SchemaProperty.name)
  | none => (b.descr).getD ""

def anyOfDescription (branches : List SchemaProperty) : String :=
  "One of: " ++
    String.intercalate " OR " (branches.map fun b => "(" ++ branchSummary b ++ ")")

def mapSPType : SPType → String
  | .one t => mapPrim (some t)
  | .many _ => "str"

/-- Modelled from the spec: body flattening of one top-level property of the
resolved request-body schema. An `anyOf` leaf becomes a single parameter
typed `str` with the synthesized union description; a nested object
flattens its children one level down using the immediate parent's declared
name; a scalar leaf becomes one prefixed parameter. Every body parameter
records its original field name in `request_body_field`. -/
def bodyToolParams (marker : String) (sp : SchemaProperty) : List ToolParameter :=
  match sp.anyOf with
  | some (b :: bs) =>
    [{ name := marker ++ sp.name, type := "str",
       description := anyOfDescription (b :: bs),
       request_body_field := some sp.name }]
  | _ =>
    match sp.properties with
    | some (c :: cs) =>
      (c :: cs).map fun child =>
        { name := marker ++ sp.name ++ "_" ++ child.name,
          type := mapSPType child.type,
          description := (child.descr).getD "",
          request_body_field := some child.name : ToolParameter }
    | _ =>
      [{ name := marker ++ sp.name, type := mapSPType sp.type,
         description := (sp.descr).getD "",
         request_body_field := some sp.name }]

/-- Modelled from the spec: body parameters carry a content-type-aware
marker — plain for form-encoded bodies, the JSON marker `j_` otherwise. -/
def markerOf (rb : RequestBody) : String :=
  if (rb.content.getD []).contains "application/x-www-form-urlencoded" then ""
  else "j_"

def queryParams (op : Operation) : List ToolParameter :=
  op.parameters.map queryToolParam

def bodyParams (op : Operation) : List ToolParameter :=
  match op.request_body_ with
  | some rb =>
    match rb.schema_ with
    | some sch => ((sch.properties).getD []).flatMap (bodyToolParams (markerOf rb))
    | none => []
  | none => []

/-- Modelled from the spec: `Tool.from_operation` — name from the operation
id, description from its summary, and the flattened parameter list: the
query/path parameters followed by the flattened body parameters. -/
def toolFromOperation (path method : String) (op : Operation) : Tool :=
  { name := sanitizeName op.id
    description := (op.summary).getD ((op.description).getD "")
    parameters := queryParams op ++ bodyParams op
    method := method
    path := path }

/-! ### C6 -/

/-- An operation whose query parameter is literally named `j_foo` while its
JSON request body declares a field `foo`: the JSON marker prefix turns the
body field into `j_foo` as well. -/
def opCollide : Operation :=
  { id := "Collide",
    parameters := [{ name := "j_foo", inLoc := "query", type := some "string" }],
    request_body_ := some
      { content := some ["application/json"],
        schema_ := some ⟨"Body",
          some [SchemaProperty.mk "foo" (.one "string") none none none none none]⟩ } }

/-- C6 counterexample: the tool built from `opCollide` carries two
parameters both named `j_foo` — the flattened parameter names of a
descriptor are not pairwise distinct for every accepted operation; the
`j_`-prefixing rule itself manufactures the collision. -/
theorem c6_counterexample :
    ((toolFromOperation "/collide" "POST" opCollide).parameters.map
        ToolParameter.name) = ["j_foo", "j_foo"] ∧
    ¬ ((toolFromOperation "/collide" "POST" opCollide).parameters.map
        ToolParameter.name).Nodup :=
  ⟨rfl, by decide⟩

/-- C6 amended: the flattened parameter list of a descriptor is the
query/path parameters followed by the body parameters, and its names are
pairwise distinct provided the flattened query names are pairwise distinct,
the flattened body names are pairwise distinct, and no flattened query name
coincides with a (marker-prefixed) flattened body name; the prefixing rule
alone does not guarantee this. -/
theorem c6_amended_unique_names (path method : String) (op : Operation) :
    ((toolFromOperation path method op).parameters.map ToolParameter.name =
      (queryParams op).map ToolParameter.name ++
        (bodyParams op).map ToolParameter.name) ∧
    (((queryParams op).map ToolParameter.name).Nodup →
      ((bodyParams op).map ToolParameter.name).Nodup →
      (∀ n ∈ (queryParams op).map ToolParameter.name,
          n ∉ (bodyParams op).map ToolParameter.name) →
      ((toolFromOperation path method op).parameters.map ToolParameter.name).Nodup) := by
  refine ⟨by simp [toolFromOperation], ?_⟩
  intro h1 h2 hd
  simp only [toolFromOperation, List.map_append]
  exact (List.nodup_append).2 ⟨h1, h2, hd⟩

/-- An operation with no name collisions. -/
def opOk : Operation :=
  { id := "Ok",
    parameters := [{ name := "q", inLoc := "query", type := some "string" }],
    request_body_ := some
      { content := some ["application/json"],
        schema_ := some ⟨"Body",
          some [SchemaProperty.mk "foo" (.one "string") none none none none none]⟩ } }

theorem c6_amended_unique_names_witness :
    ((toolFromOperation "/ok" "POST" opOk).parameters.map ToolParameter.name).Nodup := by
  exact (c6_amended_unique_names "/ok" "POST" opOk).2 (by decide) (by decide)
    (by decide)

/-! ### C7 -/

def longEnumVals : List PyVal :=
  [.vStr "option0", .vStr "option1", .vStr "option2", .vStr "option3",
   .vStr "option4", .vStr "option5", .vStr "option6", .vStr "option7",
   .vStr "option8", .vStr "option9", .vStr "option10", .vStr "option11",
   .vStr "option12", .vStr "option13", .vStr "option14", .vStr "option15",
   .vStr "option16", .vStr "option17", .vStr "option18", .vStr "option19"]

/-- The operation of `test_tool_from_operation_with_long_enum`: one query
parameter with a 20-option enum. -/
def opLongEnum : Operation :=
  { id := "TestOperation",
    summary := some "Test operation with long enum",
    parameters :=
      [{ name := "long_enum_param", inLoc := "query", type := some "string",
         description := some "A parameter with many enum options",
         enum := some longEnumVals, default := some (.vStr "option0") }],
    request_body_ := some
      { description := some "Empty request body",
        schema_ := some ⟨"EmptySchema", some []⟩ } }

def firstDescription (t : Tool) : String :=
  match t.parameters with
  | p :: _ => p.description
  | [] => ""

set_option maxRecDepth 4000 in
/-- C7: a parameter declaring a (truthy) enum is forced `required = true`
(parser.py 500-502, first conjunct); and for the 20-option enum parameter of
the test fixture, the tool parameter's description is at most 100
characters, ends in `"..."`, and starts with the original description
followed by `" Options: "` and the first options in order (remaining
conjuncts). -/
theorem c7_enum_required_and_truncation :
    (∀ p : RawParameter, enumTruthy p = true →
        (processParameter p).required = true) ∧
    (firstDescription (toolFromOperation "/test/path" "POST" opLongEnum)).length
        ≤ 100 ∧
    strEnds (firstDescription (toolFromOperation "/test/path" "POST" opLongEnum))
        "..." = true ∧
    strStarts (firstDescription (toolFromOperation "/test/path" "POST" opLongEnum))
        "A parameter with many enum options Options: option0, option1" = true := by
  refine ⟨?_, by decide, by decide, by decide⟩
  intro p h
  simp [processParameter, h]

def enumWitnessParam : RawParameter :=
  { name := "enum_param", inLoc := "query",
    schema_ := { type := some "string", enum := some [.vStr "a", .vStr "b"] } }

theorem c7_enum_required_and_truncation_witness :
    (processParameter enumWitnessParam).required = true :=
  c7_enum_required_and_truncation.1 enumWitnessParam rfl

/-! ### C8 -/

/-- Modelled from the spec and `test_tool_function_noexec`: a parameter is
body-origin when its flattened name carries the JSON marker `j_` or an
original body field was recorded. -/
def isBodyParam (p : ToolParameter) : Bool :=
  strStarts p.name "j_" || p.request_body_field.isSome

/-- Modelled from the spec and `test_tool_function_noexec`: the key of a
body-origin parameter in the outgoing body object — the recorded
`request_body_field`, and otherwise the flattened name with the JSON marker
`j_` stripped (the test dispatches `j_body_param` with no recorded field and
asserts the outgoing body key is `body_param`). -/
def bodyKey (p : ToolParameter) : String :=
  p.request_body_field.getD
    (if strStarts p.name "j_" then p.name.drop 2 else p.name)

/-- Modelled from the spec: an argument not supplied by the caller falls
back to the parameter's declared default. -/
def argValue (p : ToolParameter) (args : String → Option PyVal) : PyVal :=
  (args p.name).getD (p.default.getD .vNone)

/-- Modelled from the spec (§4.3, argument partition): walk the descriptor's
parameters; each body-origin parameter writes its value into the outgoing
body under `bodyKey` and produces no query entry, every other parameter
writes its value into the outgoing query map under its flattened name. -/
def dispatchPartition (ps : List ToolParameter) (args : String → Option PyVal) :
    List (String × PyVal) × List (String × PyVal) :=
  match ps with
  | [] => ([], [])
  | p :: rest =>
    let (q, b) := dispatchPartition rest args
    if isBodyParam p then (q, (bodyKey p, argValue p args) :: b)
    else ((p.name, argValue p args) :: q, b)

/-- The parameters of the `mock_tool` fixture of `src/tests/test_tools.py`. -/
def mockParams : List ToolParameter :=
  [{ name := "param1", type := "str", description := "First parameter" },
   { name := "param2", type := "int", description := "Second parameter" },
   { name := "j_body_param", type := "dict", description := "Body parameter" }]

/-- The arguments of `test_tool_function_noexec`. -/
def mockArgs : String → Option PyVal := fun n =>
  if n = "param1" then some (.vStr "test")
  else if n = "param2" then some (.vInt 123)
  else if n = "j_body_param" then some (.vDict [("key", .vStr "value")])
  else none

/-- C8 counterexample: dispatching the `mock_tool` fixture, whose body
parameter `j_body_param` has no recorded `request_body_field`, writes the
value under the key `body_param` — the flattened name with the `j_` marker
stripped — and not under the flattened name `j_body_param` that the claim's
fallback describes (the test asserts `json ==` the object keyed by
`body_param`). The query map carries exactly the two non-body parameters. -/
theorem c8_counterexample :
    dispatchPartition mockParams mockArgs =
      ([("param1", .vStr "test"), ("param2", .vInt 123)],
       [("body_param", .vDict [("key", .vStr "value")])]) ∧
    "j_body_param" ∉ ((dispatchPartition mockParams mockArgs).2.map Prod.fst) :=
  ⟨rfl, by decide⟩

/-- C8 amended: at dispatch time each body-origin parameter writes its
supplied (or defaulted) value into the outgoing body under its
`request_body_field` key — or, when no original field was recorded, under
its flattened name with the JSON marker `j_` stripped — and produces no
query entry; every other parameter writes its value into the outgoing query
map under its flattened name. -/
theorem c8_amended_dispatch :
    (∀ (p : ToolParameter) (rest : List ToolParameter)
        (args : String → Option PyVal), isBodyParam p = true →
        dispatchPartition (p :: rest) args =
          ((dispatchPartition rest args).1,
           (bodyKey p, argValue p args) :: (dispatchPartition rest args).2)) ∧
    (∀ (p : ToolParameter) (rest : List ToolParameter)
        (args : String → Option PyVal), isBodyParam p = false →
        dispatchPartition (p :: rest) args =
          ((p.name, argValue p args) :: (dispatchPartition rest args).1,
           (dispatchPartition rest args).2)) ∧
    (∀ (p : ToolParameter) (fld : String), p.request_body_field = some fld →
        bodyKey p = fld) ∧
    (∀ p : ToolParameter, p.request_body_field = none →
        strStarts p.name "j_" = true → bodyKey p = p.name.drop 2) := by
  refine ⟨?_, ?_, ?_, ?_⟩
  · intro p rest args h
    simp [dispatchPartition, h]
  · intro p rest args h
    simp [dispatchPartition, h]
  · intro p fld h
    simp [bodyKey, h]
  · intro p h hj
    simp [bodyKey, h, hj]

theorem c8_amended_dispatch_witness :
    dispatchPartition mockParams mockArgs =
      ([("param1", .vStr "test"), ("param2", .vInt 123)],
       [("body_param", .vDict [("key", .vStr "value")])]) := by
  rw [show mockParams =
    { name := "param1", type := "str", description := "First parameter" } ::
    [{ name := "param2", type := "int", description := "Second parameter" },
     { name := "j_body_param", type := "dict", description := "Body parameter" }] from rfl]
  rw [c8_amended_dispatch.2.1
    { name := "param1", type := "str", description := "First parameter" }
    [{ name := "param2", type := "int", description := "Second parameter" },
     { name := "j_body_param", type := "dict", description := "Body parameter" }]
    mockArgs rfl]
  rw [c8_amended_dispatch.2.1
    { name := "param2", type := "int", description := "Second parameter" }
    [{ name := "j_body_param", type := "dict", description := "Body parameter" }]
    mockArgs rfl]
  rw [c8_amended_dispatch.1
    { name := "j_body_param", type := "dict", description := "Body parameter" }
    [] mockArgs rfl]
  rfl
